import Mathlib

/-!
Shallow embedding of the shopping-list core of the `whats-cookin` repository
(`src/api/shopping-lists.ts` and the item handler
`src/api/shopping-lists/[id]/items/[itemId].ts`), together with proofs about
the ingredient-consolidation routine, the generation handler, the row
serialization and the checked-flag toggle.

Modelling conventions:
* spreadsheet rows are `List String`; an absent cell (`row[i]` being
  `undefined` in JavaScript) is `Option.none`;
* JavaScript `Map` objects are association lists in insertion order
  (`alGet` / `alSet` mirror `Map.get` / `Map.set`: `set` replaces in place
  when the key is present and appends otherwise);
* JavaScript numbers are modelled as exact decimal fixed-point values
  (`DecNum`, a value `num / 10 ^ exp`), matching the spec's "quantities are
  decimal"; `String(n)` / template rendering is `numToString`, which agrees
  with JavaScript on decimal values (binary floating-point rounding is not
  modelled); `NaN` results of `parseFloat` are conflated with `null` (both
  become `none`), which no theorem below depends on.
-/

/-- Spreadsheet row: string-typed cells, position-indexed. -/
abbrev Row := List String

/-- JavaScript `row[i]`: `none` models `undefined` for an absent cell. -/
def cell (row : Row) (i : Nat) : Option String := row.get? i

/-- JavaScript truthiness of a string-or-undefined value. -/
def truthy : Option String → Bool
  | none => false
  | some s => s ≠ ""

/-- JavaScript `c || d` for a string-or-undefined `c` and string default `d`. -/
def jsOr (c : Option String) (d : String) : String :=
  match c with
  | none => d
  | some s => if s = "" then d else s

/-- JavaScript `l.includes(c)` where `c` may be `undefined` and `l` holds strings. -/
def jsIncludes (l : List String) (c : Option String) : Bool :=
  match c with
  | none => false
  | some s => l.contains s

/-- JavaScript number, modelled as the exact decimal value
`num / 10 ^ exp` (the spec's "quantities are decimal"). -/
structure DecNum where
  num : Int
  exp : Nat
  deriving Repr, DecidableEq

instance : Zero DecNum := ⟨⟨0, 0⟩⟩

instance (n : Nat) : OfNat DecNum n := ⟨⟨n, 0⟩⟩

/-- Decimal addition: scale both summands to the larger exponent. -/
def DecNum.add (a b : DecNum) : DecNum :=
  if a.exp ≤ b.exp then ⟨a.num * 10 ^ (b.exp - a.exp) + b.num, b.exp⟩
  else ⟨a.num + b.num * 10 ^ (a.exp - b.exp), a.exp⟩

instance : Add DecNum := ⟨DecNum.add⟩

/-- JavaScript numeric truthiness: a number is falsy exactly when its value
is zero. -/
def DecNum.isZero (d : DecNum) : Bool := d.num = 0

/-- Drop trailing decimal zeros: `30 / 10^1` becomes `3 / 10^0`. -/
def DecNum.strip : Int → Nat → Int × Nat
  | n, 0 => (n, 0)
  | n, e + 1 => if n % 10 = 0 then DecNum.strip (n / 10) e else (n, e + 1)

/-- JavaScript number-to-string rendering of a decimal value: integral values
print with no point, fractional ones as `"<int>.<frac>"` with no trailing
zeros (exponent notation for extreme magnitudes is not modelled). -/
def numToString (d : DecNum) : String :=
  let p := DecNum.strip d.num d.exp
  if p.2 = 0 then toString p.1
  else
    let ds := (toString p.1.natAbs).toList
    let ds := List.replicate (p.2 + 1 - ds.length) '0' ++ ds
    (if p.1 < 0 then "-" else "") ++
      String.mk (ds.take (ds.length - p.2)) ++ "." ++ String.mk (ds.drop (ds.length - p.2))

/-- Sum of a list of decimal numbers (right fold over `DecNum.add`). -/
def sumDec (l : List DecNum) : DecNum := l.foldr (fun a b => a + b) 0

/-- Value of a digit list read in base 10. -/
def digitsVal (ds : List Char) : Nat :=
  ds.foldl (fun n c => n * 10 + (c.toNat - 48)) 0

/-- JavaScript `parseFloat`, restricted to plain decimal literals
(optional sign, integer digits, optional fraction); `none` models `NaN`.
Exponents and `Infinity` are not modelled; no theorem depends on them. -/
def parseFloatQ (s : String) : Option DecNum :=
  let cs := s.toList.dropWhile (·.isWhitespace)
  let signAndRest : Int × List Char :=
    match cs with
    | '-' :: r => (-1, r)
    | '+' :: r => (1, r)
    | r => (1, r)
  let sign := signAndRest.1
  let rest := signAndRest.2
  let intDigits := rest.takeWhile (·.isDigit)
  let rest2 := rest.drop intDigits.length
  let fracDigits :=
    match rest2 with
    | '.' :: r => r.takeWhile (·.isDigit)
    | _ => []
  if intDigits = [] ∧ fracDigits = [] then none
  else
    some ⟨sign * ((digitsVal intDigits : Int) * 10 ^ fracDigits.length +
      (digitsVal fracDigits : Int)), fracDigits.length⟩

/-- JavaScript `Map.get` on an insertion-ordered association list. -/
def alGet {β : Type} : List (String × β) → String → Option β
  | [], _ => none
  | (k', v) :: rest, k => if k' = k then some v else alGet rest k

/-- JavaScript `Map.set`: replace in place when the key is present,
append at the end otherwise. -/
def alSet {β : Type} : List (String × β) → String → β → List (String × β)
  | [], k, v => [(k, v)]
  | (k', v') :: rest, k, v =>
      if k' = k then (k, v) :: rest else (k', v') :: alSet rest k v

-- ========== column indices (from the source constants) ==========

/-- Columns of the `ShoppingLists` sheet (`LIST_COL` in the source). -/
def LIST_COL_MEAL_IDS : Nat := 2

/-- Columns of the `ShoppingListItems` sheet (`ITEM_COL` in the source). -/
def ITEM_COL_IS_CHECKED : Nat := 5

-- ========== data model ==========

/-- Catalog record held in the `ingredientMap` built by the generation handler. -/
structure IngredientInfo where
  name : String
  displayName : String
  storeSection : String
  isCommonItem : Bool
  deriving Repr, DecidableEq

/-- One collected ingredient line (`IngredientAmount` in the source).
The store section is kept as the raw string the runtime actually carries. -/
structure IngredientAmount where
  ingredientId : String
  name : String
  displayName : String
  storeSection : String
  isCommonItem : Bool
  quantity : Option DecNum
  unit : String
  notes : String
  deriving Repr, DecidableEq

instance : Inhabited IngredientAmount :=
  ⟨{ ingredientId := "", name := "", displayName := "", storeSection := "",
     isCommonItem := false, quantity := none, unit := "", notes := "" }⟩

/-- Value of `combineIngredients` for one ingredient
(the source's inline record `{ display, section, name, isCommonItem }`;
`section` is a Lean keyword, hence `storeSection`). -/
structure CombinedEntry where
  display : String
  storeSection : String
  name : String
  isCommonItem : Bool
  deriving Repr, DecidableEq

-- ========== ingredient lookup and amount collection (handler, lines 200-251) ==========

/-- Build the ingredient lookup map from the `Ingredients` sheet rows
(handler lines 201-211): skip the header row, skip rows with a falsy id,
default the display name to the name, the section to `"pantry"`, and read
the common-item flag as `cell = "TRUE"`. -/
def buildIngredientMap (ingredientRows : List Row) : List (String × IngredientInfo) :=
  (ingredientRows.drop 1).foldl
    (fun m row =>
      if truthy (cell row 0) then
        alSet m ((cell row 0).getD "")
          { name := jsOr (cell row 1) ""
            displayName := jsOr (cell row 2) (jsOr (cell row 1) "")
            storeSection := jsOr (cell row 3) "pantry"
            isCommonItem := cell row 5 = some "TRUE" }
      else m)
    []

/-- Turn one `MealIngredients` row into an `IngredientAmount`
(handler lines 226-250), synthesizing the fallback record when the
referenced ingredient is not in the map. -/
def mkAmount (ingMap : List (String × IngredientInfo)) (row : Row) : IngredientAmount :=
  let ingredientId := (cell row 2).getD ""
  let ingredient := (alGet ingMap ingredientId).getD
    { name := ingredientId, displayName := ingredientId,
      storeSection := "pantry", isCommonItem := false }
  { ingredientId := ingredientId
    name := ingredient.name
    displayName := ingredient.displayName
    storeSection := ingredient.storeSection
    isCommonItem := ingredient.isCommonItem
    quantity := match cell row 3 with
      | some s => if s ≠ "" then parseFloatQ s else none
      | none => none
    unit := jsOr (cell row 4) ""
    notes := jsOr (cell row 5) "" }

/-- Collect the amounts of every `MealIngredients` row (header skipped) whose
meal id is among the selected meals (handler lines 220-251). -/
def collectAmounts (mealIds : List String) (ingMap : List (String × IngredientInfo))
    (mealIngredientRows : List Row) : List IngredientAmount :=
  (mealIngredientRows.drop 1).foldl
    (fun acc row =>
      if jsIncludes mealIds (cell row 1) then acc ++ [mkAmount ingMap row] else acc)
    []

-- ========== combineIngredients (source lines 129-169) ==========

/-- Unit-bucket key of a line: `amount.unit || 'count'`. -/
def unitKey (a : IngredientAmount) : String :=
  if a.unit = "" then "count" else a.unit

/-- Display fragment of a line carrying a note (source line 147):
the quantity/unit prefix is present only when the quantity is truthy
(non-null and non-zero). -/
def noteFragment (a : IngredientAmount) : String :=
  match a.quantity with
  | some q =>
      if q.isZero then a.notes
      else
        numToString q ++ (if a.unit ≠ "" then " " ++ a.unit else "") ++
          " (" ++ a.notes ++ ")"
  | none => a.notes

/-- Add a combinable line's quantity into its unit bucket
(source lines 144-145 and 150-151). -/
def bucketStep (byUnit : List (String × DecNum)) (a : IngredientAmount) : List (String × DecNum) :=
  alSet byUnit (unitKey a) (((alGet byUnit (unitKey a)).getD 0) + a.quantity.getD 0)

/-- Per-ingredient pass over a group of lines (source lines 139-153):
unit buckets for the combinable lines, note fragments for the rest. -/
def processGroup (amountList : List IngredientAmount) :
    List (String × DecNum) × List String :=
  amountList.foldl
    (fun acc amount =>
      if amount.quantity.isSome ∧ amount.notes = "" then
        (bucketStep acc.1 amount, acc.2)
      else if amount.notes ≠ "" then
        (acc.1, acc.2 ++ [noteFragment amount])
      else if amount.quantity.isSome then
        (bucketStep acc.1 amount, acc.2)
      else acc)
    ([], [])

/-- Render the unit buckets (source lines 155-162): the `"count"` bucket is a
bare number, any other bucket is `"<qty> <unit>"`. -/
def bucketFragments (byUnit : List (String × DecNum)) : List String :=
  byUnit.map (fun p => if p.1 = "count" then numToString p.2 else numToString p.2 ++ " " ++ p.1)

/-- All display fragments of one ingredient's group, buckets first then notes
(source line 163). -/
def ingredientParts (g : List IngredientAmount) : List String :=
  bucketFragments (processGroup g).1 ++ (processGroup g).2

/-- Group the amounts by ingredient id (source lines 130-134). -/
def groupByIngredient (amounts : List IngredientAmount) :
    List (String × List IngredientAmount) :=
  amounts.foldl
    (fun g a => alSet g a.ingredientId (((alGet g a.ingredientId).getD []) ++ [a]))
    []

/-- Build one ingredient's combined entry from its group
(source lines 138, 164-165); the placeholder dash is the source's literal. -/
def mkEntry (g : List IngredientAmount) : CombinedEntry :=
  let first := g.headD default
  { display := if ingredientParts g = [] then "â€”" else String.intercalate " + " (ingredientParts g)
    storeSection := first.storeSection
    name := first.displayName
    isCommonItem := first.isCommonItem }

/-- The consolidation routine `combineIngredients` (source lines 129-169),
as the insertion-ordered map from ingredient id to combined entry. -/
def combineIngredients (amounts : List IngredientAmount) :
    List (String × CombinedEntry) :=
  (groupByIngredient amounts).map (fun p => (p.1, mkEntry p.2))

/-- Fixed store-section walk order (source line 171). -/
def SECTION_ORDER : List String :=
  ["produce", "meat", "dairy", "bakery", "frozen", "pantry", "beverages", "other"]

-- ========== serialization and the row store (source lines 42-58, 268, 293) ==========

/-- A JavaScript value passed to `appendRow` / `updateRow`. `undefinedV` models
`undefined` (which `String(v)` renders as `"undefined"`). -/
inductive CellValue where
  | str (s : String)
  | natv (n : Nat)
  | boolean (b : Bool)
  | null
  | undefinedV
  deriving Repr, DecidableEq

/-- The serialization `v === null ? '' : String(v)` applied to each cell by
`appendRow` and `updateRow` (source lines 47 and 56). -/
def serializeCell : CellValue → String
  | .str s => s
  | .natv n => toString n
  | .boolean b => if b then "true" else "false"
  | .null => ""
  | .undefinedV => "undefined"

/-- Serialize a whole row the way `appendRow` / `updateRow` do. -/
def serializeRow (vs : List CellValue) : Row := vs.map serializeCell

/-- Modelled from the spec: the Row Store collaborator is out of scope of the
source (`src` only calls the remote spreadsheet API); §6 of the spec fixes its
convention for stored cells — "booleans as the literal string \"TRUE\"".
Accordingly a written cell that spells a boolean is normalized to upper case
(the spreadsheet's `USER_ENTERED` input handling); other cells are kept as
written. -/
def storeNormalizeCell (s : String) : String :=
  let up := String.mk (s.toList.map Char.toUpper)
  if up = "TRUE" then "TRUE"
  else if up = "FALSE" then "FALSE"
  else s

/-- Row as the store keeps it after a write: serialized, then normalized
cell by cell (see `storeNormalizeCell`). -/
def storeWriteRow (vs : List CellValue) : Row :=
  (serializeRow vs).map storeNormalizeCell

/-- JSON escape of one character, as `JSON.stringify` performs on the meal-id
strings (source line 268). -/
def jsonEscapeChar (c : Char) : String :=
  if c = '"' then "\\\""
  else if c = '\\' then "\\\\"
  else if c = (Char.ofNat 10) then "\\n"
  else if c = (Char.ofNat 13) then "\\r"
  else if c = (Char.ofNat 9) then "\\t"
  else if c.toNat < 32 then "\\u" ++ (Nat.toDigits 16 c.toNat).asString
  else String.singleton c

/-- JavaScript `JSON.stringify` on an array of strings (source line 268). -/
def jsonStringifyStrings (l : List String) : String :=
  "[" ++ String.intercalate ","
    (l.map (fun s => "\"" ++ String.join (s.toList.map jsonEscapeChar) ++ "\"")) ++ "]"

-- ========== generation handler (source lines 181-306) ==========

/-- One shopping-list item as the handler materializes it (source lines 282-291). -/
structure Item where
  id : String
  listId : String
  ingredientId : String
  combinedQuantity : String
  storeSection : String
  isChecked : Bool
  displayOrder : Nat
  ingredientName : String
  deriving Repr, DecidableEq

/-- The response list (source line 300). -/
structure ShoppingList where
  id : String
  name : String
  mealIds : List String
  createdAt : String
  expiresAt : String
  createdBy : String
  items : List Item
  deriving Repr, DecidableEq

instance : Inhabited ShoppingList :=
  ⟨{ id := "", name := "", mealIds := [], createdAt := "", expiresAt := "",
     createdBy := "", items := [] }⟩

/-- Sheet contents read by the generation handler. -/
structure Db where
  mealIngredientRows : List Row
  ingredientRows : List Row
  deriving Repr, DecidableEq

/-- A row-store access performed by the handler. -/
inductive StoreOp where
  | read (sheet : String)
  | append (sheet : String) (values : Row)
  deriving Repr, DecidableEq

/-- Outcome of the generation handler. -/
inductive GenResult where
  | validationError (msg : String)
  | ok (list : ShoppingList)
  deriving Repr, DecidableEq

/-- Result together with the trace of row-store accesses, in order. -/
structure GenOutput where
  result : GenResult
  ops : List StoreOp
  deriving Repr, DecidableEq

/-- Whether a result is a validation error. -/
def isValidation : GenResult → Bool
  | .validationError _ => true
  | .ok _ => false

/-- The list carried by an `ok` result (default list otherwise). -/
def okList : GenResult → ShoppingList
  | .ok l => l
  | .validationError _ => default

/-- The source's "no ingredients" validation message (handler line 258). -/
def noIngredientsMsg : String :=
  "Selected meals have no ingredients. Add ingredients to your meals first."

/-- Section-ordered selection of combined entries (handler lines 274-279):
walk the fixed section order and keep, per section, the entries of that
section, skipping common items when exclusion is requested. -/
def selectFrom (order : List String) (exclude : Bool)
    (combined : List (String × CombinedEntry)) : List (String × CombinedEntry) :=
  order.flatMap (fun s =>
    combined.filter (fun e => e.2.storeSection = s ∧ ¬(exclude ∧ e.2.isCommonItem)))

/-- Emission of the item records with their strictly increasing
`displayOrder` (handler lines 281-291): one item per selected entry, the
order counter incremented per emitted item. -/
def emitItems (combined : List (String × CombinedEntry)) (exclude : Bool)
    (listId : String) (newItemId : Nat → String) : List Item :=
  (selectFrom SECTION_ORDER exclude combined).enum.map (fun p =>
    { id := newItemId p.1
      listId := listId
      ingredientId := p.2.1
      combinedQuantity := p.2.2.display
      storeSection := p.2.2.storeSection
      isChecked := false
      displayOrder := p.1
      ingredientName := p.2.2.name })

/-- Header row appended to `ShoppingLists` (handler line 268). -/
def mkListRow (listId : String) (mealIds : List String)
    (nowStr expStr email : String) : Row :=
  serializeRow [.str listId, .str "", .str (jsonStringifyStrings mealIds),
    .str nowStr, .str expStr, .str email]

/-- Item row appended to `ShoppingListItems` (handler line 293). -/
def mkItemRow (it : Item) : Row :=
  serializeRow [.str it.id, .str it.listId, .str it.ingredientId,
    .str it.combinedQuantity, .str it.storeSection, .boolean it.isChecked,
    .natv it.displayOrder]

/-- The generation path of the handler (`POST ?action=generate`, source lines
181-306): validation, catalog lookup, amount collection, consolidation,
section-ordered emission, and the persisted rows. Fresh uuids and timestamps
are parameters (`listId`, `newItemId`, `nowStr`, `expStr`). -/
def generate (mealIds : List String) (excludeCommonItems : Bool) (db : Db)
    (listId : String) (newItemId : Nat → String)
    (nowStr expStr email : String) : GenOutput :=
  if mealIds.length = 0 then
    { result := .validationError "At least one meal ID is required", ops := [] }
  else if 4 < mealIds.length then
    { result := .validationError "Maximum 4 meals per shopping list", ops := [] }
  else
    let readOps : List StoreOp := [.read "MealIngredients", .read "Ingredients"]
    let ingMap := buildIngredientMap db.ingredientRows
    let allAmounts := collectAmounts mealIds ingMap db.mealIngredientRows
    if allAmounts.length = 0 then
      { result := .validationError noIngredientsMsg, ops := readOps }
    else
      let combined := combineIngredients allAmounts
      let items := emitItems combined excludeCommonItems listId newItemId
      { result := .ok
          { id := listId, name := "", mealIds := mealIds, createdAt := nowStr,
            expiresAt := expStr, createdBy := email, items := items }
        ops := readOps ++
          [.append "ShoppingLists" (mkListRow listId mealIds nowStr expStr email)] ++
          items.map (fun it => .append "ShoppingListItems" (mkItemRow it)) }

-- ========== listing parse and toggle (source lines 309-327, 360-372) ==========

/-- The listing operation's parse of an item's checked flag
(source line 368): true exactly when the stored cell is `"TRUE"`. -/
def parseItemChecked (itemRow : Row) : Bool :=
  cell itemRow ITEM_COL_IS_CHECKED = some "TRUE"

/-- The common-item flag the generation pipeline associates to an ingredient
id (catalog entry, or the fallback's `false`). -/
def ingredientFlag (db : Db) (iid : String) : Bool :=
  ((alGet (buildIngredientMap db.ingredientRows) iid).map (·.isCommonItem)).getD false

/-- JavaScript `findIndex` with the PATCH handler's predicate
(`(row, i) => i > 0 && row[ID] === itemId && row[LIST_ID] === listId`,
source line 315), counting from index `i`. -/
def findFrom (rows : List Row) (i : Nat) (listId itemId : String) : Option Nat :=
  match rows with
  | [] => none
  | r :: rest =>
      if 0 < i ∧ cell r 0 = some itemId ∧ cell r 1 = some listId then some i
      else findFrom rest (i + 1) listId itemId

/-- Index of the item row targeted by the PATCH handler. -/
def findItemIndex (rows : List Row) (listId itemId : String) : Option Nat :=
  findFrom rows 0 listId itemId

/-- Cell `i` of a row as the JavaScript value `row[i]`. -/
def cellValOf (row : Row) (i : Nat) : CellValue :=
  match cell row i with
  | some s => .str s
  | none => .undefinedV

/-- The updated row the PATCH handler sends (source line 319): every column
copied, the checked column replaced by the request's boolean. -/
def toggleRowValues (row : Row) (isChecked : Bool) : List CellValue :=
  [cellValOf row 0, cellValOf row 1, cellValOf row 2, cellValOf row 3,
   cellValOf row 4, .boolean isChecked, cellValOf row 6]

/-- Effect of `updateRow` on the stored row: the written cells replace the
row's prefix, cells beyond the written range are left unchanged. -/
def applyUpdate (old newCells : Row) : Row :=
  newCells ++ old.drop newCells.length

/-- The PATCH toggle operation on the `ShoppingListItems` table
(source lines 309-327 plus the store write): `none` is the 404 path. -/
def toggleItem (rows : List Row) (listId itemId : String) (isChecked : Bool) :
    Option (List Row) :=
  match findItemIndex rows listId itemId with
  | none => none
  | some i =>
      some (rows.set i
        (applyUpdate (rows.getD i []) (storeWriteRow (toggleRowValues (rows.getD i []) isChecked))))

-- ========== decimal arithmetic lemmas ==========

theorem DecNum.add_def (a b : DecNum) :
    a + b = ⟨a.num * 10 ^ (max a.exp b.exp - a.exp) +
      b.num * 10 ^ (max a.exp b.exp - b.exp), max a.exp b.exp⟩ := by
  show DecNum.add a b = _
  unfold DecNum.add
  by_cases h : a.exp ≤ b.exp
  · rw [if_pos h]
    simp [Nat.max_eq_right h, Nat.sub_self]
  · have h' : b.exp ≤ a.exp := Nat.le_of_not_le h
    rw [if_neg h]
    simp [Nat.max_eq_left h', Nat.sub_self]

@[simp]
theorem DecNum.zero_add_dec (a : DecNum) : 0 + a = a := by
  obtain ⟨n, e⟩ := a
  show DecNum.add 0 ⟨n, e⟩ = ⟨n, e⟩
  unfold DecNum.add
  simp [show (0 : DecNum).exp = 0 from rfl, show (0 : DecNum).num = 0 from rfl]

@[simp]
theorem DecNum.add_zero_dec (a : DecNum) : a + 0 = a := by
  obtain ⟨n, e⟩ := a
  show DecNum.add ⟨n, e⟩ 0 = ⟨n, e⟩
  unfold DecNum.add
  by_cases h : e ≤ 0
  · have he : e = 0 := Nat.le_zero.mp h
    subst he
    simp [show (0 : DecNum).exp = 0 from rfl, show (0 : DecNum).num = 0 from rfl]
  · simp [show (0 : DecNum).exp = 0 from rfl, show (0 : DecNum).num = 0 from rfl, h]

theorem DecNum.add_assoc_dec (a b c : DecNum) : a + b + c = a + (b + c) := by
  have key : ∀ (x : Int) (i j k : Nat), i ≤ j → j ≤ k →
      x * 10 ^ (j - i) * 10 ^ (k - j) = x * 10 ^ (k - i) := by
    intro x i j k hij hjk
    rw [mul_assoc, ← pow_add]
    have h : j - i + (k - j) = k - i := by omega
    rw [h]
  simp only [DecNum.add_def, DecNum.mk.injEq]
  constructor
  · rw [add_mul,
      key a.num a.exp (max a.exp b.exp) (max (max a.exp b.exp) c.exp)
        (le_max_left _ _) (le_max_left _ _),
      key b.num b.exp (max a.exp b.exp) (max (max a.exp b.exp) c.exp)
        (le_max_right _ _) (le_max_left _ _),
      add_mul,
      key b.num b.exp (max b.exp c.exp) (max a.exp (max b.exp c.exp))
        (le_max_left _ _) (le_max_right _ _),
      key c.num c.exp (max b.exp c.exp) (max a.exp (max b.exp c.exp))
        (le_max_right _ _) (le_max_right _ _),
      max_assoc]
    ring
  · exact max_assoc _ _ _

@[simp]
theorem sumDec_nil : sumDec [] = 0 := rfl

@[simp]
theorem sumDec_cons (a : DecNum) (l : List DecNum) :
    sumDec (a :: l) = a + sumDec l := rfl

-- ========== association-list lemmas ==========

/-- Keys of an association list, in order. -/
def alKeys {β : Type} (l : List (String × β)) : List String := l.map Prod.fst

@[simp]
theorem alGet_alSet_self {β : Type} (l : List (String × β)) (k : String) (v : β) :
    alGet (alSet l k v) k = some v := by
  induction l with
  | nil => simp [alSet, alGet]
  | cons p rest ih =>
      by_cases h : p.1 = k
      · simp [alSet, alGet, h]
      · simp [alSet, alGet, h, ih]

theorem alGet_alSet_ne {β : Type} (l : List (String × β)) (k k' : String) (v : β)
    (h : k' ≠ k) : alGet (alSet l k v) k' = alGet l k' := by
  induction l with
  | nil => simp [alSet, alGet, Ne.symm h]
  | cons p rest ih =>
      by_cases hp : p.1 = k
      · simp [alSet, alGet, hp, Ne.symm h]
      · simp [alSet, alGet, hp, ih]

theorem alKeys_alSet {β : Type} (l : List (String × β)) (k : String) (v : β) :
    alKeys (alSet l k v) = if (alGet l k).isSome then alKeys l else alKeys l ++ [k] := by
  induction l with
  | nil => simp [alSet, alGet, alKeys]
  | cons p rest ih =>
      by_cases hp : p.1 = k
      · simp [alSet, alGet, alKeys, hp]
      · simp only [alSet, alGet, alKeys, List.map_cons, hp, if_false, ite_false,
          if_neg hp]
        simp only [alKeys] at ih
        rw [ih]
        by_cases hs : (alGet rest k).isSome <;> simp [hs]

theorem mem_alKeys_of_alGet_isSome {β : Type} {l : List (String × β)} {k : String}
    (h : (alGet l k).isSome) : k ∈ alKeys l := by
  induction l with
  | nil => simp [alGet] at h
  | cons p rest ih =>
      by_cases hp : p.1 = k
      · simp [alKeys, hp]
      · simp only [alGet, hp, if_neg hp] at h
        simp only [alKeys, List.map_cons, List.mem_cons]
        exact Or.inr (ih h)

theorem alGet_isSome_of_mem_alKeys {β : Type} {l : List (String × β)} {k : String}
    (h : k ∈ alKeys l) : (alGet l k).isSome := by
  induction l with
  | nil => simp [alKeys] at h
  | cons p rest ih =>
      by_cases hp : p.1 = k
      · simp [alGet, hp]
      · simp only [alKeys, List.map_cons, List.mem_cons] at h
        rcases h with h1 | h1
        · exact absurd h1.symm hp
        · simpa [alGet, hp] using ih h1

theorem mem_alKeys_iff_isSome {β : Type} (l : List (String × β)) (k : String) :
    k ∈ alKeys l ↔ (alGet l k).isSome :=
  ⟨alGet_isSome_of_mem_alKeys, mem_alKeys_of_alGet_isSome⟩

theorem alKeys_nodup_alSet {β : Type} (l : List (String × β)) (k : String) (v : β)
    (h : (alKeys l).Nodup) : (alKeys (alSet l k v)).Nodup := by
  rw [alKeys_alSet]
  by_cases hs : (alGet l k).isSome
  · simpa [hs]
  · rw [if_neg (by simp [hs])]
    have hk : k ∉ alKeys l := fun hmem => hs (alGet_isSome_of_mem_alKeys hmem)
    exact List.Nodup.append h (List.nodup_singleton k)
      (by intro a ha hb; rw [List.mem_singleton] at hb; exact hk (hb ▸ ha))

theorem alGet_of_mem_nodup {β : Type} {l : List (String × β)} {k : String} {v : β}
    (hnd : (alKeys l).Nodup) (hmem : (k, v) ∈ l) : alGet l k = some v := by
  induction l with
  | nil => simp at hmem
  | cons p rest ih =>
      simp only [alKeys, List.map_cons, List.nodup_cons] at hnd
      rcases List.mem_cons.mp hmem with h1 | h1
      · simp [alGet, ← h1]
      · have hp : p.1 ≠ k := by
          intro hpk
          exact hnd.1 (hpk ▸ List.mem_map.mpr ⟨(k, v), h1, rfl⟩)
        simpa [alGet, hp] using ih hnd.2 h1

-- ========== characterization of groupByIngredient ==========

theorem groupBy_foldl_alGet (l : List IngredientAmount)
    (acc : List (String × List IngredientAmount)) (k : String) :
    alGet (l.foldl
      (fun g a => alSet g a.ingredientId (((alGet g a.ingredientId).getD []) ++ [a])) acc) k =
    (if (l.filter (fun a => a.ingredientId = k)) = [] then alGet acc k
     else some (((alGet acc k).getD []) ++ l.filter (fun a => a.ingredientId = k))) := by
  induction l generalizing acc with
  | nil => simp
  | cons a rest ih =>
      simp only [List.foldl_cons, ih]
      by_cases hk : a.ingredientId = k
      · subst hk
        rw [List.filter_cons_of_pos (by simp)]
        by_cases hr : rest.filter (fun x => x.ingredientId = a.ingredientId) = []
        · simp [hr]
        · simp [hr, List.append_assoc]
      · rw [List.filter_cons_of_neg (by simp [hk])]
        have hne : k ≠ a.ingredientId := fun h => hk h.symm
        simp only [alGet_alSet_ne _ _ _ _ hne]

theorem groupByIngredient_alGet (amounts : List IngredientAmount) (k : String) :
    alGet (groupByIngredient amounts) k =
    (if (amounts.filter (fun a => a.ingredientId = k)) = [] then none
     else some (amounts.filter (fun a => a.ingredientId = k))) := by
  unfold groupByIngredient
  rw [groupBy_foldl_alGet]
  by_cases h : (amounts.filter (fun a => a.ingredientId = k)) = [] <;> simp [h, alGet]

theorem groupByIngredient_keys_nodup (amounts : List IngredientAmount) :
    (alKeys (groupByIngredient amounts)).Nodup := by
  unfold groupByIngredient
  generalize hacc : ([] : List (String × List IngredientAmount)) = acc
  have hnd : (alKeys acc).Nodup := by rw [← hacc]; simp [alKeys]
  clear hacc
  induction amounts generalizing acc with
  | nil => simpa using hnd
  | cons a rest ih => exact ih _ (alKeys_nodup_alSet _ _ _ hnd)

theorem mem_groupByIngredient (amounts : List IngredientAmount) (k : String)
    (g : List IngredientAmount) (hmem : (k, g) ∈ groupByIngredient amounts) :
    g = amounts.filter (fun a => a.ingredientId = k) ∧ g ≠ [] := by
  have h := alGet_of_mem_nodup (groupByIngredient_keys_nodup amounts) hmem
  rw [groupByIngredient_alGet] at h
  by_cases hf : (amounts.filter (fun a => a.ingredientId = k)) = []
  · simp [hf] at h
  · rw [if_neg hf] at h
    have hg := (Option.some_injective _ h).symm
    exact ⟨hg, by rw [hg]; exact hf⟩

-- ========== characterization of processGroup ==========

/-- Bucket map produced by folding `bucketStep` over a list of lines. -/
def unitBuckets (l : List IngredientAmount) : List (String × DecNum) :=
  l.foldl bucketStep []

theorem processGroup_foldl (g : List IngredientAmount)
    (accB : List (String × DecNum)) (accN : List String) :
    g.foldl
      (fun acc amount =>
        if amount.quantity.isSome ∧ amount.notes = "" then
          (bucketStep acc.1 amount, acc.2)
        else if amount.notes ≠ "" then
          (acc.1, acc.2 ++ [noteFragment amount])
        else if amount.quantity.isSome then
          (bucketStep acc.1 amount, acc.2)
        else acc)
      (accB, accN) =
    ((g.filter (fun a => a.quantity.isSome ∧ a.notes = "")).foldl bucketStep accB,
     accN ++ (g.filter (fun a => a.notes ≠ "")).map noteFragment) := by
  induction g generalizing accB accN with
  | nil => simp
  | cons a rest ih =>
      simp only [List.foldl_cons]
      by_cases hc : a.quantity.isSome ∧ a.notes = ""
      · rw [if_pos hc, ih]
        rw [List.filter_cons_of_pos (by simpa using hc),
          List.filter_cons_of_neg (by simp [hc.2])]
        simp
      · rw [if_neg hc]
        by_cases hn : a.notes ≠ ""
        · rw [if_pos hn, ih]
          rw [List.filter_cons_of_neg (by simpa using hc),
            List.filter_cons_of_pos (by simpa using hn)]
          simp [List.append_assoc]
        · have hq : ¬a.quantity.isSome = true := by
            intro hs
            exact hc ⟨hs, by simpa using hn⟩
          rw [if_neg hn, if_neg hq, ih]
          rw [List.filter_cons_of_neg (by simpa using hc),
            List.filter_cons_of_neg (by simpa using hn)]

theorem processGroup_eq (g : List IngredientAmount) :
    processGroup g =
      (unitBuckets (g.filter (fun a => a.quantity.isSome ∧ a.notes = "")),
       (g.filter (fun a => a.notes ≠ "")).map noteFragment) := by
  unfold processGroup unitBuckets
  rw [processGroup_foldl]
  simp

-- ========== characterization of the unit buckets ==========

theorem unitBuckets_foldl_alGet (l : List IngredientAmount)
    (acc : List (String × DecNum)) (u : String) :
    alGet (l.foldl bucketStep acc) u =
    (if (l.filter (fun a => unitKey a = u)) = [] then alGet acc u
     else some (((alGet acc u).getD 0) +
       sumDec ((l.filter (fun a => unitKey a = u)).map (fun a => a.quantity.getD 0)))) := by
  induction l generalizing acc with
  | nil => simp
  | cons a rest ih =>
      simp only [List.foldl_cons, ih]
      by_cases hu : unitKey a = u
      · rw [List.filter_cons_of_pos (by simp [hu])]
        have hself : alGet (bucketStep acc a) u =
            some (((alGet acc u).getD 0) + a.quantity.getD 0) := by
          unfold bucketStep
          rw [hu]
          exact alGet_alSet_self _ _ _
        by_cases hr : rest.filter (fun x => unitKey x = u) = []
        · simp [hr, hself]
        · simp [hr, hself, DecNum.add_assoc_dec]
      · rw [List.filter_cons_of_neg (by simp [hu])]
        have hne : u ≠ unitKey a := fun h => hu h.symm
        unfold bucketStep
        rw [alGet_alSet_ne _ _ _ _ hne]

theorem unitBuckets_alGet (l : List IngredientAmount) (u : String) :
    alGet (unitBuckets l) u =
    (if (l.filter (fun a => unitKey a = u)) = [] then none
     else some (sumDec ((l.filter (fun a => unitKey a = u)).map (fun a => a.quantity.getD 0)))) := by
  unfold unitBuckets
  rw [unitBuckets_foldl_alGet]
  by_cases h : (l.filter (fun a => unitKey a = u)) = [] <;> simp [h, alGet]

theorem unitBuckets_keys_nodup (l : List IngredientAmount) :
    (alKeys (unitBuckets l)).Nodup := by
  unfold unitBuckets
  generalize hacc : ([] : List (String × DecNum)) = acc
  have hnd : (alKeys acc).Nodup := by rw [← hacc]; simp [alKeys]
  clear hacc
  induction l generalizing acc with
  | nil => simpa using hnd
  | cons a rest ih => exact ih _ (alKeys_nodup_alSet _ _ _ hnd)

theorem processGroup_fst_buckets (g : List IngredientAmount) (u : String) (q : DecNum)
    (hmem : (u, q) ∈ (processGroup g).1) :
    q = sumDec ((g.filter (fun a => (a.quantity.isSome ∧ a.notes = "") ∧ unitKey a = u)).map
      (fun a => a.quantity.getD 0)) ∧
    (g.filter (fun a => (a.quantity.isSome ∧ a.notes = "") ∧ unitKey a = u)) ≠ [] := by
  rw [processGroup_eq] at hmem
  have h := alGet_of_mem_nodup (unitBuckets_keys_nodup _) hmem
  rw [unitBuckets_alGet] at h
  rw [List.filter_filter] at h
  have hfe : ∀ a : IngredientAmount,
      (decide (unitKey a = u) && decide (a.quantity.isSome ∧ a.notes = "")) =
      decide ((a.quantity.isSome ∧ a.notes = "") ∧ unitKey a = u) := by
    intro a
    by_cases h1 : unitKey a = u <;> by_cases h2 : a.quantity.isSome ∧ a.notes = "" <;>
      simp [h1, h2]
  rw [List.filter_congr (fun a _ => hfe a)] at h
  by_cases hf : (g.filter (fun a => (a.quantity.isSome ∧ a.notes = "") ∧ unitKey a = u)) = []
  · rw [if_pos hf] at h; simp at h
  · rw [if_neg hf] at h
    exact ⟨(Option.some_injective _ h).symm, hf⟩

-- ========== two-line consolidation computation ==========

theorem combine_two_same (a1 a2 : IngredientAmount) (q1 q2 : DecNum)
    (hid : a2.ingredientId = a1.ingredientId) (hnu : unitKey a2 = unitKey a1)
    (hn1 : a1.notes = "") (hn2 : a2.notes = "")
    (hq1 : a1.quantity = some q1) (hq2 : a2.quantity = some q2) :
    combineIngredients [a1, a2] =
      [(a1.ingredientId,
        { display := if unitKey a1 = "count" then numToString (q1 + q2)
            else numToString (q1 + q2) ++ " " ++ unitKey a1
          storeSection := a1.storeSection
          name := a1.displayName
          isCommonItem := a1.isCommonItem })] := by
  by_cases hc : unitKey a1 = "count" <;>
    simp [combineIngredients, groupByIngredient, mkEntry, ingredientParts, processGroup,
      bucketStep, bucketFragments, alGet, alSet, hid, hnu, hn1, hn2, hq1, hq2, hc,
      String.intercalate, String.intercalate.go, List.foldl_cons]

-- ========== claim theorems: consolidation (C1, C2, C10) ==========

/-- Claimed note-fragment form, following the spec's words (§4.1 step 3):
the fragment is "<quantity> <unit> (<note>)" with the quantity and unit
omitted exactly when the quantity is null. Stated only to compare against
the source's `noteFragment`. -/
def specNoteFragment (a : IngredientAmount) : String :=
  match a.quantity with
  | none => a.notes
  | some q =>
      numToString q ++ (if a.unit = "" then "" else " " ++ a.unit) ++
        " (" ++ a.notes ++ ")"

/-- C1: combinable lines (non-null quantity, no note) of one ingredient's group
are summed per distinct normalized unit string into a single bucket per unit:
bucket keys are pairwise distinct, each bucket's quantity is the sum of its
matching lines (the empty unit normalizing to the "count" bucket), and two
same-unit no-note lines of one ingredient yield exactly one summed fragment
(a bare number for the count bucket, "<qty> <unit>" otherwise) — never two
fragments. -/
theorem c1_sum_per_unit (g : List IngredientAmount) :
    (alKeys (processGroup g).1).Nodup
    ∧ (∀ u q, (u, q) ∈ (processGroup g).1 →
        q = sumDec ((g.filter (fun a => (a.quantity.isSome ∧ a.notes = "") ∧ unitKey a = u)).map
              (fun a => a.quantity.getD 0))
        ∧ (g.filter (fun a => (a.quantity.isSome ∧ a.notes = "") ∧ unitKey a = u)) ≠ [])
    ∧ (∀ a1 a2 : IngredientAmount, ∀ q1 q2 : DecNum,
        a2.ingredientId = a1.ingredientId → a1.unit = a2.unit →
        a1.notes = "" → a2.notes = "" →
        a1.quantity = some q1 → a2.quantity = some q2 →
        (combineIngredients [a1, a2]).map (fun p => (p.1, p.2.display)) =
          [(a1.ingredientId,
            if a1.unit = "" ∨ a1.unit = "count" then numToString (q1 + q2)
            else numToString (q1 + q2) ++ " " ++ a1.unit)]) := by
  refine ⟨?_, ?_, ?_⟩
  · rw [processGroup_eq]
    exact unitBuckets_keys_nodup _
  · exact fun u q hmem => processGroup_fst_buckets g u q hmem
  · intro a1 a2 q1 q2 hid hu hn1 hn2 hq1 hq2
    have hnu : unitKey a2 = unitKey a1 := by unfold unitKey; rw [hu]
    rw [combine_two_same a1 a2 q1 q2 hid hnu hn1 hn2 hq1 hq2]
    by_cases h0 : a1.unit = ""
    · simp [unitKey, h0]
    · by_cases hcnt : a1.unit = "count"
      · simp [unitKey, h0, hcnt]
      · simp [unitKey, h0, hcnt]

/-- Witness for C1 at a concrete input: "2 cup" flour plus "1 cup" flour is the
single fragment "3 cup". -/
theorem c1_sum_per_unit_witness :
    (combineIngredients
      [{ ingredientId := "ing-flour", name := "flour", displayName := "Flour",
         storeSection := "pantry", isCommonItem := false, quantity := some 2,
         unit := "cup", notes := "" },
       { ingredientId := "ing-flour", name := "flour", displayName := "Flour",
         storeSection := "pantry", isCommonItem := false, quantity := some 1,
         unit := "cup", notes := "" }]).map (fun p => (p.1, p.2.display)) =
      [("ing-flour", "3 cup")] := by
  rw [(c1_sum_per_unit
      [{ ingredientId := "ing-flour", name := "flour", displayName := "Flour",
         storeSection := "pantry", isCommonItem := false, quantity := some 2,
         unit := "cup", notes := "" },
       { ingredientId := "ing-flour", name := "flour", displayName := "Flour",
         storeSection := "pantry", isCommonItem := false, quantity := some 1,
         unit := "cup", notes := "" }]).2.2
    { ingredientId := "ing-flour", name := "flour", displayName := "Flour",
      storeSection := "pantry", isCommonItem := false, quantity := some 2,
      unit := "cup", notes := "" }
    { ingredientId := "ing-flour", name := "flour", displayName := "Flour",
      storeSection := "pantry", isCommonItem := false, quantity := some 1,
      unit := "cup", notes := "" }
    2 1 rfl rfl rfl rfl rfl rfl]
  decide

/-- C2, amended: a noted line is excluded from the numeric buckets and yields
its own display fragment (one fragment per noted line, after the buckets), of
the form "<quantity> <unit> (<note>)" — but the quantity/unit prefix is
omitted whenever the quantity is JavaScript-falsy, that is null or zero, not
only when it is null. -/
theorem c2_note_fragments (g : List IngredientAmount) :
    ((processGroup g).2 = (g.filter (fun a => a.notes ≠ "")).map noteFragment)
    ∧ ((processGroup g).1 = (processGroup (g.filter (fun a => a.notes = ""))).1)
    ∧ (∀ a : IngredientAmount, ∀ q : DecNum, a.quantity = some q → q.isZero = true →
        noteFragment a = a.notes)
    ∧ (∀ a : IngredientAmount, a.quantity = none → noteFragment a = a.notes)
    ∧ (∀ a : IngredientAmount, ∀ q : DecNum, a.quantity = some q → q.isZero = false →
        noteFragment a =
          numToString q ++ (if a.unit ≠ "" then " " ++ a.unit else "") ++
            " (" ++ a.notes ++ ")") := by
  refine ⟨?_, ?_, ?_, ?_, ?_⟩
  · rw [processGroup_eq]
  · rw [processGroup_eq, processGroup_eq, List.filter_filter]
    have hfe : ∀ a : IngredientAmount,
        (decide (a.quantity.isSome ∧ a.notes = "") && decide (a.notes = "")) =
        decide (a.quantity.isSome ∧ a.notes = "") := by
      intro a
      by_cases h : a.notes = "" <;> simp [h]
    rw [List.filter_congr (fun a _ => hfe a)]
  · intro a q ha hz; simp [noteFragment, ha, hz]
  · intro a ha; simp [noteFragment, ha]
  · intro a q ha hz; simp [noteFragment, ha, hz]

/-- Counterexample to C2 as stated: a line with quantity 0 (reachable from a
raw row whose quantity cell is "0") and note "sifted" yields the bare fragment
"sifted", not the claimed "0 cup (sifted)" — the quantity/unit prefix is also
dropped for a zero quantity, not only for a null one. -/
theorem c2_note_fragments_cex :
    (processGroup [mkAmount [] ["mi1", "m1", "ing-flour", "0", "cup", "sifted"]]).2 =
      ["sifted"]
    ∧ specNoteFragment (mkAmount [] ["mi1", "m1", "ing-flour", "0", "cup", "sifted"]) =
      "0 cup (sifted)"
    ∧ ("sifted" : String) ≠ "0 cup (sifted)" := by
  refine ⟨by decide, by decide, by decide⟩

/-- Witness for C2 at a concrete input: a zero-quantity noted line renders as
the bare note. -/
theorem c2_note_fragments_witness :
    noteFragment (mkAmount [] ["mi2", "m1", "ing-salt", "0", "", "to taste"]) = "to taste" := by
  exact ((c2_note_fragments []).2.2.1
    (mkAmount [] ["mi2", "m1", "ing-salt", "0", "", "to taste"]) ⟨0, 0⟩
    (by decide) (by decide)).trans (by decide)

/-- C10: a line whose unit string is literally "count" is bucketed together
with unit-less lines of the same ingredient (both normalize to the "count"
bucket), and the merged bucket renders as a bare number with no unit text. -/
theorem c10_count_bucket :
    (∀ a : IngredientAmount, a.unit = "count" ∨ a.unit = "" → unitKey a = "count")
    ∧ (∀ a1 a2 : IngredientAmount, ∀ q1 q2 : DecNum,
        a2.ingredientId = a1.ingredientId → a1.unit = "count" → a2.unit = "" →
        a1.notes = "" → a2.notes = "" →
        a1.quantity = some q1 → a2.quantity = some q2 →
        (combineIngredients [a1, a2]).map (fun p => (p.1, p.2.display)) =
          [(a1.ingredientId, numToString (q1 + q2))]) := by
  constructor
  · intro a ha
    rcases ha with h | h <;> simp [unitKey, h]
  · intro a1 a2 q1 q2 hid hu1 hu2 hn1 hn2 hq1 hq2
    have h1 : unitKey a1 = "count" := by simp [unitKey, hu1]
    have hnu : unitKey a2 = unitKey a1 := by simp [unitKey, hu1, hu2]
    rw [combine_two_same a1 a2 q1 q2 hid hnu hn1 hn2 hq1 hq2]
    simp [h1]

/-- Witness for C10 at a concrete input: "2 count" eggs plus "3" (unit-less)
eggs merge into the single bare fragment "5". -/
theorem c10_count_bucket_witness :
    (combineIngredients
      [{ ingredientId := "ing-eggs", name := "eggs", displayName := "Eggs",
         storeSection := "dairy", isCommonItem := false, quantity := some 2,
         unit := "count", notes := "" },
       { ingredientId := "ing-eggs", name := "eggs", displayName := "Eggs",
         storeSection := "dairy", isCommonItem := false, quantity := some 3,
         unit := "", notes := "" }]).map (fun p => (p.1, p.2.display)) =
      [("ing-eggs", "5")] := by
  rw [c10_count_bucket.2
    { ingredientId := "ing-eggs", name := "eggs", displayName := "Eggs",
      storeSection := "dairy", isCommonItem := false, quantity := some 2,
      unit := "count", notes := "" }
    { ingredientId := "ing-eggs", name := "eggs", displayName := "Eggs",
      storeSection := "dairy", isCommonItem := false, quantity := some 3,
      unit := "", notes := "" }
    2 3 rfl rfl rfl rfl rfl rfl rfl]
  decide

-- ========== selection and emission lemmas ==========

theorem selectFrom_cons (s : String) (rest : List String) (ex : Bool)
    (c : List (String × CombinedEntry)) :
    selectFrom (s :: rest) ex c =
      c.filter (fun e => e.2.storeSection = s ∧ ¬(ex ∧ e.2.isCommonItem)) ++
        selectFrom rest ex c := by
  simp [selectFrom, List.flatMap_cons]

theorem mem_selectFrom {order : List String} {ex : Bool}
    {c : List (String × CombinedEntry)} {e : String × CombinedEntry}
    (h : e ∈ selectFrom order ex c) :
    e ∈ c ∧ e.2.storeSection ∈ order ∧ ¬(ex = true ∧ e.2.isCommonItem = true) := by
  rcases List.mem_flatMap.mp h with ⟨s, hs, he⟩
  rcases List.mem_filter.mp he with ⟨hec, hp⟩
  have hp' := of_decide_eq_true hp
  exact ⟨hec, hp'.1 ▸ hs, hp'.2⟩

theorem selectFrom_sections_pairwise (f : String → Nat) (order : List String)
    (ex : Bool) (c : List (String × CombinedEntry))
    (hord : order.Pairwise (fun s t => f s < f t)) :
    ((selectFrom order ex c).map (fun e => f e.2.storeSection)).Pairwise (· ≤ ·) := by
  induction order with
  | nil => simp [selectFrom]
  | cons s rest ih =>
      rw [selectFrom_cons, List.map_append]
      rw [List.pairwise_append]
      refine ⟨?_, ih (List.Pairwise.of_cons hord), ?_⟩
      · rw [List.pairwise_map]
        apply List.pairwise_of_forall_mem_list
        intro a ha b hb
        have hsa : a.2.storeSection = s := (of_decide_eq_true (List.mem_filter.mp ha).2).1
        have hsb : b.2.storeSection = s := (of_decide_eq_true (List.mem_filter.mp hb).2).1
        rw [hsa, hsb]
      · intro x hx y hy
        rcases List.mem_map.mp hx with ⟨a, ha, hax⟩
        rcases List.mem_map.mp hy with ⟨b, hb, hby⟩
        have hsa : a.2.storeSection = s := (of_decide_eq_true (List.mem_filter.mp ha).2).1
        have hsb : b.2.storeSection ∈ rest := (mem_selectFrom hb).2.1
        have hlt : f s < f b.2.storeSection := List.rel_of_pairwise_cons hord hsb
        rw [← hax, ← hby, hsa]
        exact le_of_lt hlt

theorem selectFrom_keys_nodup (order : List String) (ex : Bool)
    (c : List (String × CombinedEntry))
    (hc : (alKeys c).Nodup) (hord : order.Nodup) :
    ((selectFrom order ex c).map Prod.fst).Nodup := by
  induction order with
  | nil => simp [selectFrom]
  | cons s rest ih =>
      rw [selectFrom_cons, List.map_append, List.nodup_append]
      refine ⟨?_, ih (List.Nodup.of_cons hord), ?_⟩
      · exact List.Nodup.sublist (List.Sublist.map _ (List.filter_sublist c)) hc
      · intro k hk1 hk2
        rcases List.mem_map.mp hk1 with ⟨a, ha, hak⟩
        rcases List.mem_map.mp hk2 with ⟨b, hb, hbk⟩
        have hac : a ∈ c := (List.mem_filter.mp ha).1
        have hbc : b ∈ c := (mem_selectFrom hb).1
        have hab : a = b := List.inj_on_of_nodup_map hc hac hbc (by rw [hak, hbk])
        have hsa : a.2.storeSection = s := (of_decide_eq_true (List.mem_filter.mp ha).2).1
        have hsb : b.2.storeSection ∈ rest := (mem_selectFrom hb).2.1
        rw [← hab, hsa] at hsb
        exact (List.nodup_cons.mp hord).1 hsb

theorem emitItems_map_ingredientId (c : List (String × CombinedEntry)) (ex : Bool)
    (listId : String) (nid : Nat → String) :
    (emitItems c ex listId nid).map (fun it => it.ingredientId) =
      (selectFrom SECTION_ORDER ex c).map Prod.fst := by
  unfold emitItems
  rw [List.map_map]
  have h : ((selectFrom SECTION_ORDER ex c).enum.map Prod.snd).map Prod.fst =
      (selectFrom SECTION_ORDER ex c).map Prod.fst := by
    rw [List.enum_map_snd]
  rw [← h, List.map_map]
  rfl

theorem emitItems_map_displayOrder (c : List (String × CombinedEntry)) (ex : Bool)
    (listId : String) (nid : Nat → String) :
    (emitItems c ex listId nid).map (fun it => it.displayOrder) =
      List.range (selectFrom SECTION_ORDER ex c).length := by
  unfold emitItems
  rw [List.map_map]
  have h : ((selectFrom SECTION_ORDER ex c).enum.map Prod.fst) =
      List.range (selectFrom SECTION_ORDER ex c).length := List.enum_map_fst _
  rw [← h]
  rfl

theorem emitItems_map_storeSection (c : List (String × CombinedEntry)) (ex : Bool)
    (listId : String) (nid : Nat → String) :
    (emitItems c ex listId nid).map (fun it => it.storeSection) =
      (selectFrom SECTION_ORDER ex c).map (fun e => e.2.storeSection) := by
  unfold emitItems
  rw [List.map_map]
  have h : (((selectFrom SECTION_ORDER ex c).enum.map Prod.snd).map (fun e => e.2.storeSection)) =
      (selectFrom SECTION_ORDER ex c).map (fun e => e.2.storeSection) := by
    rw [List.enum_map_snd]
  rw [← h, List.map_map]
  rfl

theorem mem_emitItems {c : List (String × CombinedEntry)} {ex : Bool}
    {listId : String} {nid : Nat → String} {it : Item}
    (h : it ∈ emitItems c ex listId nid) :
    ∃ e ∈ selectFrom SECTION_ORDER ex c,
      it.ingredientId = e.1 ∧ it.storeSection = e.2.storeSection := by
  unfold emitItems at h
  rcases List.mem_map.mp h with ⟨p, hp, hit⟩
  refine ⟨p.2, ?_, ?_, ?_⟩
  · have : p.2 ∈ (selectFrom SECTION_ORDER ex c).enum.map Prod.snd :=
      List.mem_map_of_mem Prod.snd hp
    rwa [List.enum_map_snd] at this
  · rw [← hit]
  · rw [← hit]

-- ========== consolidation keys and entries ==========

theorem combineIngredients_keys (amounts : List IngredientAmount) :
    alKeys (combineIngredients amounts) = alKeys (groupByIngredient amounts) := by
  unfold combineIngredients alKeys
  rw [List.map_map]
  rfl

theorem combineIngredients_keys_nodup (amounts : List IngredientAmount) :
    (alKeys (combineIngredients amounts)).Nodup := by
  rw [combineIngredients_keys]
  exact groupByIngredient_keys_nodup amounts

theorem mem_combineIngredients_keys (amounts : List IngredientAmount) (k : String) :
    k ∈ alKeys (combineIngredients amounts) ↔ ∃ a ∈ amounts, a.ingredientId = k := by
  rw [combineIngredients_keys, mem_alKeys_iff_isSome, groupByIngredient_alGet]
  by_cases hf : (amounts.filter (fun a => a.ingredientId = k)) = []
  · rw [if_pos hf]
    rw [List.filter_eq_nil_iff] at hf
    simp only [Option.isSome_none, Bool.false_eq_true, false_iff]
    rintro ⟨a, ha, hk⟩
    exact (hf a ha) (by simp [hk])
  · rw [if_neg hf]
    simp only [Option.isSome_some, true_iff]
    rcases List.exists_mem_of_ne_nil _ hf with ⟨a, ha⟩
    rcases List.mem_filter.mp ha with ⟨hmem, hp⟩
    exact ⟨a, hmem, of_decide_eq_true hp⟩

theorem mem_combineIngredients {amounts : List IngredientAmount}
    {e : String × CombinedEntry} (h : e ∈ combineIngredients amounts) :
    ∃ g : List IngredientAmount,
      g = amounts.filter (fun a => a.ingredientId = e.1) ∧ g ≠ [] ∧ e.2 = mkEntry g := by
  unfold combineIngredients at h
  rcases List.mem_map.mp h with ⟨p, hp, he⟩
  have hg := mem_groupByIngredient amounts p.1 p.2 (by
    have : p = (p.1, p.2) := rfl
    rwa [← this])
  refine ⟨p.2, ?_, hg.2, ?_⟩
  · rw [← he]
    exact hg.1
  · rw [← he]

theorem mkEntry_head (g : List IngredientAmount) (hg : g ≠ []) :
    (mkEntry g).storeSection = (g.headD default).storeSection
    ∧ (mkEntry g).isCommonItem = (g.headD default).isCommonItem := by
  unfold mkEntry
  exact ⟨rfl, rfl⟩

theorem headD_mem {g : List IngredientAmount} (hg : g ≠ []) : g.headD default ∈ g := by
  cases g with
  | nil => exact absurd rfl hg
  | cons a l => simp

-- ========== collection lemmas ==========

theorem collectAmounts_eq (mealIds : List String)
    (ingMap : List (String × IngredientInfo)) (rows : List Row) :
    collectAmounts mealIds ingMap rows =
      ((rows.drop 1).filter (fun r => jsIncludes mealIds (cell r 1))).map (mkAmount ingMap) := by
  unfold collectAmounts
  generalize (rows.drop 1) = l
  have h : ∀ (l : List Row) (acc : List IngredientAmount),
      l.foldl (fun acc row =>
        if jsIncludes mealIds (cell row 1) then acc ++ [mkAmount ingMap row] else acc) acc =
      acc ++ (l.filter (fun r => jsIncludes mealIds (cell r 1))).map (mkAmount ingMap) := by
    intro l
    induction l with
    | nil => intro acc; simp
    | cons r rest ih =>
        intro acc
        simp only [List.foldl_cons]
        by_cases hr : jsIncludes mealIds (cell r 1)
        · rw [if_pos hr, ih, List.filter_cons_of_pos (by simpa using hr)]
          simp
        · rw [if_neg hr, ih, List.filter_cons_of_neg (by simpa using hr)]
  rw [h l []]
  simp

theorem mkAmount_isCommonItem (ingMap : List (String × IngredientInfo)) (row : Row) :
    (mkAmount ingMap row).isCommonItem =
      ((alGet ingMap ((mkAmount ingMap row).ingredientId)).map (fun i => i.isCommonItem)).getD false := by
  cases h : alGet ingMap ((cell row 2).getD "") <;> simp [mkAmount, h]

theorem collectAmounts_flag (mealIds : List String)
    (ingMap : List (String × IngredientInfo)) (rows : List Row)
    (a : IngredientAmount) (ha : a ∈ collectAmounts mealIds ingMap rows) :
    a.isCommonItem = ((alGet ingMap a.ingredientId).map (fun i => i.isCommonItem)).getD false := by
  rw [collectAmounts_eq] at ha
  rcases List.mem_map.mp ha with ⟨r, _, hr⟩
  rw [← hr]
  exact mkAmount_isCommonItem ingMap r

-- ========== inversion of the generation handler ==========

theorem generate_ok_inv (mealIds : List String) (exclude : Bool) (db : Db)
    (listId : String) (nid : Nat → String) (nowStr expStr email : String)
    (list : ShoppingList)
    (hok : (generate mealIds exclude db listId nid nowStr expStr email).result = .ok list) :
    list.items = emitItems
      (combineIngredients
        (collectAmounts mealIds (buildIngredientMap db.ingredientRows) db.mealIngredientRows))
      exclude listId nid := by
  unfold generate at hok
  by_cases h1 : mealIds.length = 0
  · rw [if_pos h1] at hok
    simp at hok
  · rw [if_neg h1] at hok
    by_cases h2 : 4 < mealIds.length
    · rw [if_pos h2] at hok
      simp at hok
    · rw [if_neg h2] at hok
      simp only [] at hok
      by_cases h3 : (collectAmounts mealIds (buildIngredientMap db.ingredientRows)
          db.mealIngredientRows).length = 0
      · rw [if_pos h3] at hok
        simp at hok
      · rw [if_neg h3] at hok
        simp only [GenResult.ok.injEq] at hok
        rw [← hok]

-- ========== claim theorems: generation (C3-C8) ==========

/-- C3: a generated list has at most one item per distinct ingredient id, and
the consolidation groups by ingredient id only — one entry per distinct id of
the input lines, and two lines with distinct ids are never merged (names play
no role in grouping). -/
theorem c3_one_item_per_ingredient (mealIds : List String) (exclude : Bool) (db : Db)
    (listId : String) (nid : Nat → String) (nowStr expStr email : String)
    (list : ShoppingList)
    (h1 : 1 ≤ mealIds.length) (h2 : mealIds.length ≤ 4)
    (hok : (generate mealIds exclude db listId nid nowStr expStr email).result = .ok list) :
    ((list.items.map (fun it => it.ingredientId)).Nodup)
    ∧ (∀ amounts : List IngredientAmount,
        (alKeys (combineIngredients amounts)).Nodup
        ∧ (∀ iid, iid ∈ alKeys (combineIngredients amounts) ↔
            ∃ a ∈ amounts, a.ingredientId = iid))
    ∧ (∀ a1 a2 : IngredientAmount, a1.ingredientId ≠ a2.ingredientId →
        (combineIngredients [a1, a2]).length = 2) := by
  refine ⟨?_, ?_, ?_⟩
  · rw [generate_ok_inv _ _ _ _ _ _ _ _ _ hok, emitItems_map_ingredientId]
    exact selectFrom_keys_nodup _ _ _ (combineIngredients_keys_nodup _) (by decide)
  · exact fun amounts => ⟨combineIngredients_keys_nodup amounts,
      fun iid => mem_combineIngredients_keys amounts iid⟩
  · intro a1 a2 hne
    simp [combineIngredients, groupByIngredient, alGet, alSet, hne]

/-- Witness for C3 at a concrete generation: the spec's §8 example input. -/
theorem c3_one_item_per_ingredient_witness :
    ((okList (generate ["A", "B"] true
        { mealIngredientRows :=
            [[], ["mi1", "A", "ing-flour", "2", "cup", ""],
             ["mi2", "A", "ing-salt", "1", "tsp", ""],
             ["mi3", "B", "ing-flour", "1", "cup", ""],
             ["mi4", "B", "ing-eggs", "2", "", ""]]
          ingredientRows :=
            [[], ["ing-flour", "flour", "Flour", "pantry", "cup", "FALSE", "", ""],
             ["ing-salt", "salt", "Salt", "pantry", "tsp", "TRUE", "", ""],
             ["ing-eggs", "eggs", "Eggs", "dairy", "", "FALSE", "", ""]] }
        "L1" (fun n => "item" ++ toString n) "now" "exp" "u@x").result).items.map
      (fun it => it.ingredientId)).Nodup := by
  exact (c3_one_item_per_ingredient ["A", "B"] true
    { mealIngredientRows :=
        [[], ["mi1", "A", "ing-flour", "2", "cup", ""],
         ["mi2", "A", "ing-salt", "1", "tsp", ""],
         ["mi3", "B", "ing-flour", "1", "cup", ""],
         ["mi4", "B", "ing-eggs", "2", "", ""]]
      ingredientRows :=
        [[], ["ing-flour", "flour", "Flour", "pantry", "cup", "FALSE", "", ""],
         ["ing-salt", "salt", "Salt", "pantry", "tsp", "TRUE", "", ""],
         ["ing-eggs", "eggs", "Eggs", "dairy", "", "FALSE", "", ""]] }
    "L1" (fun n => "item" ++ toString n) "now" "exp" "u@x" _
    (by decide) (by decide) rfl).1

/-- C4: in every generated list, `displayOrder` strictly increases in emission
order, and the emitted items walk the store sections in the fixed order
produce, meat, dairy, bakery, frozen, pantry, beverages, other — each
section's items are contiguous, one section fully before the next. -/
theorem c4_display_order (mealIds : List String) (exclude : Bool) (db : Db)
    (listId : String) (nid : Nat → String) (nowStr expStr email : String)
    (list : ShoppingList)
    (hok : (generate mealIds exclude db listId nid nowStr expStr email).result = .ok list) :
    SECTION_ORDER = ["produce", "meat", "dairy", "bakery", "frozen", "pantry",
      "beverages", "other"]
    ∧ ((list.items.map (fun it => it.displayOrder)).Pairwise (· < ·))
    ∧ ((list.items.map (fun it => List.indexOf it.storeSection SECTION_ORDER)).Pairwise (· ≤ ·)) := by
  refine ⟨rfl, ?_, ?_⟩
  · rw [generate_ok_inv _ _ _ _ _ _ _ _ _ hok, emitItems_map_displayOrder]
    exact List.pairwise_lt_range _
  · have he : list.items.map (fun it => List.indexOf it.storeSection SECTION_ORDER) =
        (list.items.map (fun it => it.storeSection)).map
          (fun s => List.indexOf s SECTION_ORDER) := by
      rw [List.map_map]
      rfl
    rw [he, generate_ok_inv _ _ _ _ _ _ _ _ _ hok, emitItems_map_storeSection, List.map_map]
    exact selectFrom_sections_pairwise (fun s => List.indexOf s SECTION_ORDER) _ _ _ (by decide)

/-- Witness for C4 at a concrete generation. -/
theorem c4_display_order_witness :
    ((okList (generate ["A", "B"] false
        { mealIngredientRows :=
            [[], ["mi1", "A", "ing-flour", "2", "cup", ""],
             ["mi3", "B", "ing-apple", "1", "", ""],
             ["mi4", "B", "ing-eggs", "2", "", ""]]
          ingredientRows :=
            [[], ["ing-flour", "flour", "Flour", "pantry", "cup", "FALSE", "", ""],
             ["ing-apple", "apple", "Apples", "produce", "", "FALSE", "", ""],
             ["ing-eggs", "eggs", "Eggs", "dairy", "", "FALSE", "", ""]] }
        "L1" (fun n => "item" ++ toString n) "now" "exp" "u@x").result).items.map
      (fun it => it.displayOrder)).Pairwise (· < ·) := by
  exact (c4_display_order ["A", "B"] false
    { mealIngredientRows :=
        [[], ["mi1", "A", "ing-flour", "2", "cup", ""],
         ["mi3", "B", "ing-apple", "1", "", ""],
         ["mi4", "B", "ing-eggs", "2", "", ""]]
      ingredientRows :=
        [[], ["ing-flour", "flour", "Flour", "pantry", "cup", "FALSE", "", ""],
         ["ing-apple", "apple", "Apples", "produce", "", "FALSE", "", ""],
         ["ing-eggs", "eggs", "Eggs", "dairy", "", "FALSE", "", ""]] }
    "L1" (fun n => "item" ++ toString n) "now" "exp" "u@x" _ rfl).2.1

/-- C5, amended: with `excludeCommonItems` true no common-flagged ingredient
contributes an item; but the "no ingredients" validation error fires exactly
when zero amounts were collected before exclusion, so a sole common ingredient
yields a successful generation with an empty items list, not the error. -/
theorem c5_exclude_common (mealIds : List String) (db : Db) (listId : String)
    (nid : Nat → String) (nowStr expStr email : String) :
    (∀ list, (generate mealIds true db listId nid nowStr expStr email).result = .ok list →
      ∀ it ∈ list.items, ingredientFlag db it.ingredientId = false)
    ∧ (1 ≤ mealIds.length → mealIds.length ≤ 4 →
        ((generate mealIds true db listId nid nowStr expStr email).result =
            .validationError noIngredientsMsg ↔
          collectAmounts mealIds (buildIngredientMap db.ingredientRows)
            db.mealIngredientRows = [])) := by
  constructor
  · intro list hok it hit
    rw [generate_ok_inv _ _ _ _ _ _ _ _ _ hok] at hit
    rcases mem_emitItems hit with ⟨e, he, hiid, _⟩
    have hsel := mem_selectFrom he
    have hflag : e.2.isCommonItem = false := by
      by_cases hf : e.2.isCommonItem = true
      · exact absurd ⟨rfl, hf⟩ hsel.2.2
      · simpa using hf
    rcases mem_combineIngredients hsel.1 with ⟨g, hg, hgne, hentry⟩
    subst hg
    have hhead := headD_mem hgne
    have hfirst_mem := (List.mem_filter.mp hhead).1
    have hfirst_id := of_decide_eq_true (List.mem_filter.mp hhead).2
    have hfl := collectAmounts_flag _ _ _ _ hfirst_mem
    calc ingredientFlag db it.ingredientId
        = ingredientFlag db e.1 := by rw [hiid]
      _ = _ := congrArg (ingredientFlag db) hfirst_id.symm
      _ = e.2.isCommonItem := by
            unfold ingredientFlag
            rw [← hfl, hentry]
            exact ((mkEntry_head _ hgne).2).symm
      _ = false := hflag
  · intro hlen1 hlen2
    unfold generate
    rw [if_neg (by omega), if_neg (by omega)]
    by_cases h3 : (collectAmounts mealIds (buildIngredientMap db.ingredientRows)
        db.mealIngredientRows).length = 0
    · rw [if_pos h3]
      simp only [List.length_eq_zero] at h3
      simp [h3]
    · rw [if_neg h3]
      constructor
      · intro h
        simp at h
      · intro h
        exact absurd (by rw [h]; rfl) h3

/-- Counterexample to C5 as stated: the only supplied ingredient is a common
item and `excludeCommonItems` is true, yet generation succeeds with an empty
items list — the "no ingredients" validation error is not raised, contrary to
the claim. -/
theorem c5_exclude_common_cex :
    isValidation (generate ["m1"] true
      { mealIngredientRows := [[], ["mi1", "m1", "ing-salt", "1", "tsp", ""]]
        ingredientRows := [[], ["ing-salt", "salt", "Salt", "pantry", "tsp", "TRUE", "", ""]] }
      "L" (fun _ => "I") "n" "e" "u").result = false
    ∧ (okList (generate ["m1"] true
      { mealIngredientRows := [[], ["mi1", "m1", "ing-salt", "1", "tsp", ""]]
        ingredientRows := [[], ["ing-salt", "salt", "Salt", "pantry", "tsp", "TRUE", "", ""]] }
      "L" (fun _ => "I") "n" "e" "u").result).items = []
    ∧ ingredientFlag
      { mealIngredientRows := [[], ["mi1", "m1", "ing-salt", "1", "tsp", ""]]
        ingredientRows := [[], ["ing-salt", "salt", "Salt", "pantry", "tsp", "TRUE", "", ""]] }
      "ing-salt" = true
    ∧ (collectAmounts ["m1"]
        (buildIngredientMap [[], ["ing-salt", "salt", "Salt", "pantry", "tsp", "TRUE", "", ""]])
        [[], ["mi1", "m1", "ing-salt", "1", "tsp", ""]]).map (fun a => a.ingredientId) =
      ["ing-salt"] := by
  refine ⟨by decide, by decide, by decide, by decide⟩

/-- Witness for C5 at a concrete input: a db with no matching rows makes the
"no ingredients" error equivalent to the empty collection. -/
theorem c5_exclude_common_witness :
    (generate ["m1"] true { mealIngredientRows := [], ingredientRows := [] }
        "L" (fun _ => "I") "n" "e" "u").result =
      GenResult.validationError noIngredientsMsg ↔
    collectAmounts ["m1"] (buildIngredientMap ([] : List Row)) ([] : List Row) = [] := by
  exact (c5_exclude_common ["m1"]
    { mealIngredientRows := [], ingredientRows := [] }
    "L" (fun _ => "I") "n" "e" "u").2 (by decide) (by decide)

/-- C6: an empty or oversized (more than 4) meal-id set is rejected with a
validation error and the handler performs no row-store access at all. -/
theorem c6_validation_before_store (mealIds : List String) (exclude : Bool) (db : Db)
    (listId : String) (nid : Nat → String) (nowStr expStr email : String)
    (h : mealIds.length = 0 ∨ 4 < mealIds.length) :
    (generate mealIds exclude db listId nid nowStr expStr email).ops = []
    ∧ isValidation (generate mealIds exclude db listId nid nowStr expStr email).result = true := by
  unfold generate
  rcases h with h | h
  · rw [if_pos h]
    exact ⟨rfl, rfl⟩
  · rw [if_neg (by omega), if_pos h]
    exact ⟨rfl, rfl⟩

/-- Witness for C6 at concrete inputs: five meal ids are rejected without any
store operation. -/
theorem c6_validation_before_store_witness :
    (generate ["a", "b", "c", "d", "e"] false
        { mealIngredientRows := [[], ["mi1", "a", "i", "1", "", ""]],
          ingredientRows := [] }
        "L" (fun _ => "I") "n" "e" "u").ops = []
    ∧ isValidation (generate ["a", "b", "c", "d", "e"] false
        { mealIngredientRows := [[], ["mi1", "a", "i", "1", "", ""]],
          ingredientRows := [] }
        "L" (fun _ => "I") "n" "e" "u").result = true := by
  exact c6_validation_before_store ["a", "b", "c", "d", "e"] false
    { mealIngredientRows := [[], ["mi1", "a", "i", "1", "", ""]], ingredientRows := [] }
    "L" (fun _ => "I") "n" "e" "u" (Or.inr (by decide))

/-- C7: an ingredient line whose reference misses the catalog map gets the
synthesized fallback record — raw reference as both name and display name,
section "pantry", common-item flag false — and collection still produces
exactly one amount per matched row, so the operation never fails on an
unresolved reference. -/
theorem c7_fallback_record (ingMap : List (String × IngredientInfo)) (row : Row)
    (hmiss : alGet ingMap ((cell row 2).getD "") = none) :
    ((mkAmount ingMap row).name = (mkAmount ingMap row).ingredientId
     ∧ (mkAmount ingMap row).displayName = (mkAmount ingMap row).ingredientId
     ∧ (mkAmount ingMap row).storeSection = "pantry"
     ∧ (mkAmount ingMap row).isCommonItem = false)
    ∧ (∀ (mealIds : List String) (m : List (String × IngredientInfo)) (rows : List Row),
        (collectAmounts mealIds m rows).length =
          ((rows.drop 1).filter (fun r => jsIncludes mealIds (cell r 1))).length) := by
  constructor
  · simp [mkAmount, hmiss]
  · intro mealIds m rows
    rw [collectAmounts_eq, List.length_map]

/-- Witness for C7 at a concrete input: an empty catalog map forces the
fallback for a raw "mystery" reference. -/
theorem c7_fallback_record_witness :
    (mkAmount [] ["mi1", "m1", "mystery", "2", "cup", ""]).name =
      (mkAmount [] ["mi1", "m1", "mystery", "2", "cup", ""]).ingredientId
    ∧ (mkAmount [] ["mi1", "m1", "mystery", "2", "cup", ""]).displayName =
      (mkAmount [] ["mi1", "m1", "mystery", "2", "cup", ""]).ingredientId
    ∧ (mkAmount [] ["mi1", "m1", "mystery", "2", "cup", ""]).storeSection = "pantry"
    ∧ (mkAmount [] ["mi1", "m1", "mystery", "2", "cup", ""]).isCommonItem = false := by
  exact (c7_fallback_record [] ["mi1", "m1", "mystery", "2", "cup", ""] (by decide)).1

/-- C8, amended: the row writers serialize through JavaScript `String()` —
booleans become the lowercase "true"/"false" (the row store's `USER_ENTERED`
handling normalizes them to the stored "TRUE"/"FALSE"), numbers become decimal
strings, and the meal-id list is written as a JSON array string (quoted,
comma-separated, bracketed), not a bare comma-join; the listing parses an
item's checked flag as true exactly when the stored cell is "TRUE". -/
theorem c8_serialization :
    (∀ b : Bool, serializeCell (.boolean b) = if b then "true" else "false")
    ∧ (∀ n : Nat, serializeCell (.natv n) = Nat.repr n)
    ∧ (∀ (listId : String) (ms : List String) (nowStr expStr email : String),
        cell (mkListRow listId ms nowStr expStr email) LIST_COL_MEAL_IDS =
          some (jsonStringifyStrings ms))
    ∧ (∀ r : Row, parseItemChecked r = true ↔ cell r ITEM_COL_IS_CHECKED = some "TRUE")
    ∧ (∀ b : Bool, storeNormalizeCell (serializeCell (.boolean b)) =
        if b then "TRUE" else "FALSE") := by
  refine ⟨?_, ?_, ?_, ?_, ?_⟩
  · intro b; cases b <;> rfl
  · intro n; rfl
  · intro listId ms nowStr expStr email; rfl
  · intro r
    unfold parseItemChecked
    exact decide_eq_true_iff
  · intro b; cases b <;> decide

/-- Counterexample to C8 as stated: the serializer renders the boolean true as
"true", not the claimed literal "TRUE", and the meal-id list ["a", "b"] is
stored as the JSON array text, not as the bare comma-join "a,b". -/
theorem c8_serialization_cex :
    serializeCell (.boolean true) = "true"
    ∧ ("true" : String) ≠ "TRUE"
    ∧ cell (mkListRow "L" ["a", "b"] "now" "exp" "u") LIST_COL_MEAL_IDS =
        some "[\x22a\x22,\x22b\x22]"
    ∧ ("[\x22a\x22,\x22b\x22]" : String) ≠ "a,b" := by
  refine ⟨by decide, by decide, by decide, by decide⟩

-- ========== toggle lemmas (C9) ==========

theorem findFrom_ge (rows : List Row) (i : Nat) (listId itemId : String) (j : Nat)
    (h : findFrom rows i listId itemId = some j) : i ≤ j := by
  induction rows generalizing i with
  | nil => simp [findFrom] at h
  | cons r rest ih =>
      unfold findFrom at h
      by_cases hp : 0 < i ∧ cell r 0 = some itemId ∧ cell r 1 = some listId
      · rw [if_pos hp] at h
        injection h with h
        omega
      · rw [if_neg hp] at h
        have := ih (i + 1) h
        omega

theorem findFrom_get (rows : List Row) (i : Nat) (listId itemId : String) (j : Nat)
    (h : findFrom rows i listId itemId = some j) :
    0 < j ∧ ∃ r, rows.get? (j - i) = some r ∧
      cell r 0 = some itemId ∧ cell r 1 = some listId := by
  induction rows generalizing i with
  | nil => simp [findFrom] at h
  | cons r rest ih =>
      unfold findFrom at h
      by_cases hp : 0 < i ∧ cell r 0 = some itemId ∧ cell r 1 = some listId
      · rw [if_pos hp] at h
        injection h with h
        subst h
        refine ⟨hp.1, r, ?_, hp.2.1, hp.2.2⟩
        simp [Nat.sub_self]
      · rw [if_neg hp] at h
        have hge := findFrom_ge rest (i + 1) listId itemId j h
        rcases ih (i + 1) h with ⟨hj, r', hr', hc0, hc1⟩
        refine ⟨hj, r', ?_, hc0, hc1⟩
        have hs : j - i = (j - (i + 1)) + 1 := by omega
        rw [hs]
        simpa using hr'

theorem findFrom_set_stable (rows : List Row) (i : Nat) (listId itemId : String)
    (j : Nat) (r' : Row)
    (h : findFrom rows i listId itemId = some j)
    (h0 : cell r' 0 = some itemId) (h1 : cell r' 1 = some listId) :
    findFrom (rows.set (j - i) r') i listId itemId = some j := by
  induction rows generalizing i with
  | nil => simp [findFrom] at h
  | cons r rest ih =>
      unfold findFrom at h
      by_cases hp : 0 < i ∧ cell r 0 = some itemId ∧ cell r 1 = some listId
      · rw [if_pos hp] at h
        injection h with h
        subst h
        have hz : i - i = 0 := Nat.sub_self i
        rw [hz, List.set_cons_zero]
        unfold findFrom
        rw [if_pos ⟨hp.1, h0, h1⟩]
      · rw [if_neg hp] at h
        have hge := findFrom_ge rest (i + 1) listId itemId j h
        have hs : j - i = (j - (i + 1)) + 1 := by omega
        rw [hs, List.set_cons_succ]
        unfold findFrom
        rw [if_neg hp]
        exact ih (i + 1) h

theorem set_get_self {α : Type} (l : List α) (n : Nat) (a : α) (h : l.get? n = some a) :
    l.set n a = l := by
  induction l generalizing n with
  | nil => simp at h
  | cons x xs ih =>
      cases n with
      | zero =>
          simp only [List.get?] at h
          injection h with h
          rw [h]
          rfl
      | succ m =>
          simp only [List.get?] at h
          simp [ih m h]

theorem applyUpdate_toggle (a0 a1 a2 a3 a4 a5 a6 : String) (t : List String) (b : Bool)
    (h0 : storeNormalizeCell a0 = a0) (h1 : storeNormalizeCell a1 = a1)
    (h2 : storeNormalizeCell a2 = a2) (h3 : storeNormalizeCell a3 = a3)
    (h4 : storeNormalizeCell a4 = a4) (h6 : storeNormalizeCell a6 = a6) :
    applyUpdate (a0 :: a1 :: a2 :: a3 :: a4 :: a5 :: a6 :: t)
      (storeWriteRow (toggleRowValues (a0 :: a1 :: a2 :: a3 :: a4 :: a5 :: a6 :: t) b)) =
    a0 :: a1 :: a2 :: a3 :: a4 :: (if b then "TRUE" else "FALSE") :: a6 :: t := by
  have htrue : storeNormalizeCell "true" = "TRUE" := by decide
  have hfalse : storeNormalizeCell "false" = "FALSE" := by decide
  cases b <;>
    simp [applyUpdate, storeWriteRow, serializeRow, serializeCell, toggleRowValues,
      cellValOf, cell, h0, h1, h2, h3, h4, h6, htrue, hfalse]

theorem toggleItem_eq (rows : List Row) (listId itemId : String) (i : Nat) (row : Row)
    (hfind : findItemIndex rows listId itemId = some i)
    (hrow : rows.get? i = some row)
    (hlen : 7 ≤ row.length)
    (hnorm : ∀ c ∈ row, storeNormalizeCell c = c) (b : Bool) :
    toggleItem rows listId itemId b =
      some (rows.set i (row.set 5 (if b then "TRUE" else "FALSE"))) := by
  unfold toggleItem
  rw [hfind]
  have hgetD : rows.getD i [] = row := by
    rw [List.getD_eq_get?, hrow]
    rfl
  show some (rows.set i (applyUpdate (rows.getD i [])
    (storeWriteRow (toggleRowValues (rows.getD i []) b)))) = _
  rw [hgetD]
  rcases row with _ | ⟨a0, row⟩
  · simp at hlen
  rcases row with _ | ⟨a1, row⟩
  · simp at hlen
  rcases row with _ | ⟨a2, row⟩
  · simp at hlen
  rcases row with _ | ⟨a3, row⟩
  · simp at hlen
  rcases row with _ | ⟨a4, row⟩
  · simp at hlen
  rcases row with _ | ⟨a5, row⟩
  · simp at hlen
  rcases row with _ | ⟨a6, t⟩
  · simp at hlen
  rw [applyUpdate_toggle a0 a1 a2 a3 a4 a5 a6 t b
    (hnorm a0 (by simp)) (hnorm a1 (by simp)) (hnorm a2 (by simp))
    (hnorm a3 (by simp)) (hnorm a4 (by simp)) (hnorm a6 (by simp))]
  rfl

/-- C9: toggling an item's checked flag twice — to the opposite value and back
to the original value — returns the stored items table to the original state;
each single toggle rewrites only the found row, changing only its checked cell
(to the store's normalized "TRUE"/"FALSE"). The hypotheses record that the row
was written by the system: store-normalized cells, at least the 7 item
columns, and a "TRUE"/"FALSE" checked cell. -/
theorem c9_toggle_roundtrip (rows : List Row) (listId itemId : String) (i : Nat)
    (row : Row)
    (hfind : findItemIndex rows listId itemId = some i)
    (hrow : rows.get? i = some row)
    (hlen : 7 ≤ row.length)
    (hnorm : ∀ c ∈ row, storeNormalizeCell c = c)
    (hchk : cell row 5 = some "TRUE" ∨ cell row 5 = some "FALSE") :
    (∀ b : Bool, toggleItem rows listId itemId b =
        some (rows.set i (row.set 5 (if b then "TRUE" else "FALSE"))))
    ∧ ((toggleItem rows listId itemId (!parseItemChecked row)).bind
        (fun rows1 => toggleItem rows1 listId itemId (parseItemChecked row)) = some rows) := by
  have hlt : i < rows.length := (List.get?_eq_some.mp hrow).1
  constructor
  · exact toggleItem_eq rows listId itemId i row hfind hrow hlen hnorm
  · rw [toggleItem_eq rows listId itemId i row hfind hrow hlen hnorm (!parseItemChecked row),
      Option.some_bind]
    rcases findFrom_get rows 0 listId itemId i hfind with ⟨_, r0, hr0, hc0, hc1⟩
    rw [Nat.sub_zero, hrow] at hr0
    injection hr0 with hr0
    subst hr0
    have hne0 : (5 : Nat) ≠ 0 := by omega
    have hne1 : (5 : Nat) ≠ 1 := by omega
    have hfind1 : findItemIndex
        (rows.set i (row.set 5 (if (!parseItemChecked row) then "TRUE" else "FALSE")))
        listId itemId = some i := by
      have hst := findFrom_set_stable rows 0 listId itemId i
        (row.set 5 (if (!parseItemChecked row) then "TRUE" else "FALSE")) hfind
        ((List.get?_set_ne _ _ hne0).trans hc0)
        ((List.get?_set_ne _ _ hne1).trans hc1)
      rw [Nat.sub_zero] at hst
      exact hst
    have hrow1 : (rows.set i (row.set 5 (if (!parseItemChecked row) then "TRUE" else "FALSE"))).get? i =
        some (row.set 5 (if (!parseItemChecked row) then "TRUE" else "FALSE")) := by
      rw [List.get?_set_eq, hrow]
      rfl
    have hlen1 : 7 ≤ (row.set 5 (if (!parseItemChecked row) then "TRUE" else "FALSE")).length := by
      rw [List.length_set]
      exact hlen
    have hnorm1 : ∀ c ∈ row.set 5 (if (!parseItemChecked row) then "TRUE" else "FALSE"),
        storeNormalizeCell c = c := by
      intro c hc
      rcases List.mem_or_eq_of_mem_set hc with hmem | heq
      · exact hnorm c hmem
      · subst heq
        cases hb : (!parseItemChecked row) <;> decide
    rw [toggleItem_eq _ listId itemId i _ hfind1 hrow1 hlen1 hnorm1 (parseItemChecked row)]
    rw [List.set_set, List.set_set]
    rcases hchk with hc | hc
    · have hv : parseItemChecked row = true := by
        unfold parseItemChecked ITEM_COL_IS_CHECKED
        rw [hc]
        decide
      rw [hv]
      rw [show (if true then "TRUE" else "FALSE") = "TRUE" from rfl]
      rw [set_get_self row 5 "TRUE" hc, set_get_self rows i row hrow]
    · have hv : parseItemChecked row = false := by
        unfold parseItemChecked ITEM_COL_IS_CHECKED
        rw [hc]
        decide
      rw [hv]
      rw [show (if false then "TRUE" else "FALSE") = "FALSE" from rfl]
      rw [set_get_self row 5 "FALSE" hc, set_get_self rows i row hrow]

/-- Witness for C9 at a concrete items table: header row plus one unchecked
item; toggling to checked and back restores the table exactly. -/
theorem c9_toggle_roundtrip_witness :
    (toggleItem [[], ["i1", "l1", "ing", "3 cups", "produce", "FALSE", "0"]] "l1" "i1"
        (!parseItemChecked ["i1", "l1", "ing", "3 cups", "produce", "FALSE", "0"])).bind
      (fun rows1 => toggleItem rows1 "l1" "i1"
        (parseItemChecked ["i1", "l1", "ing", "3 cups", "produce", "FALSE", "0"])) =
      some [[], ["i1", "l1", "ing", "3 cups", "produce", "FALSE", "0"]] := by
  exact (c9_toggle_roundtrip [[], ["i1", "l1", "ing", "3 cups", "produce", "FALSE", "0"]]
    "l1" "i1" 1 ["i1", "l1", "ing", "3 cups", "produce", "FALSE", "0"]
    rfl rfl (by decide) (by decide) (Or.inr rfl)).2
